import Mathlib

/-!
Shallow embedding of the numeric core of the baba-portfolio animation engine
(smooth scroll tracker, pin-and-scale transform, marquee/carousel, staggered
words), with proofs of the specification's testable properties.

Source files embedded:
- `src/components/photos/FloatingGalleryHero.jsx` (marquee layout, wrap
  arithmetic, `shortestWrappingDelta`, `computeDepthScale`, tick, handleSelect)
- `src/context/SmoothScrollContext.jsx` (`lerp`, `updateScroll`, `scrollTo`,
  `getScrollPosition`, listener notification)
- `src/components/ui/IntroSection.jsx` (`updateTransform`, both variants)

JavaScript numbers are modelled as exact rationals (`ℚ`); where a claim is
specifically about JavaScript division-by-zero producing NaN/Infinity, a small
`JSNum` type with IEEE-style special values is used instead.  `Math.pow` with
the non-integer exponent `DEPTH_EASING_POWER = 1.9` is modelled as the real
power `Real.rpow`.
-/

/-! ## JavaScript modular arithmetic

JavaScript's `%` is a truncated-division remainder (the sign follows the
dividend).  The source repeatedly uses the idiom `((v % w) + w) % w` to reduce
a coordinate into the strip range `[0, w)`; we name that `wrap`. -/

/-- Truncation toward zero, as used by the JavaScript `%` operator. -/
def jsTrunc (q : ℚ) : ℤ := if 0 ≤ q then ⌊q⌋ else ⌈q⌉

/-- JavaScript remainder `a % b`: `a - b * trunc (a / b)`. -/
def jsMod (a b : ℚ) : ℚ := a - b * (jsTrunc (a / b) : ℚ)

/-- The source idiom `((v % w) + w) % w`, reducing `v` into `[0, w)`. -/
def wrap (v w : ℚ) : ℚ := jsMod (jsMod v w + w) w

/-- Cubic ease-out from `FloatingGalleryHero.jsx` (`easeOutCubic`). -/
def easeOutCubic (t : ℚ) : ℚ := 1 - (1 - t) ^ 3

/--
Shortest signed travel from `current` to `target` on the wrapping line of
length `totalWidth` (`shortestWrappingDelta` in `FloatingGalleryHero.jsx`,
lines 130-137).
-/
def shortestWrappingDelta (current target totalWidth : ℚ) : ℚ :=
  let c := wrap current totalWidth
  let t := wrap target totalWidth
  let delta := t - c
  let delta1 := if totalWidth / 2 < delta then delta - totalWidth else delta
  if delta1 < -(totalWidth / 2) then delta1 + totalWidth else delta1

/--
Target offset computed by `handleSelect` in `FloatingGalleryHero.jsx`
(lines 542-544): place the clicked item's center (`basePosition + width/2`)
at 50vw, wrapped into the strip range.
-/
def handleSelectTargetOffset (basePosition scaledWidth totalWidth : ℚ) : ℚ :=
  wrap (basePosition + scaledWidth / 2 - 50) totalWidth

/--
Delta of the `ShiftAnimation` installed by `handleSelect`
(`FloatingGalleryHero.jsx` line 546).
-/
def handleSelectDelta (offset basePosition scaledWidth totalWidth : ℚ) : ℚ :=
  shortestWrappingDelta offset
    (handleSelectTargetOffset basePosition scaledWidth totalWidth) totalWidth

/-! ## Lemmas about `jsMod` and `wrap` -/

theorem jsMod_eq_fract_mul (a b : ℚ) (ha : 0 ≤ a) (hb : 0 < b) :
    jsMod a b = b * Int.fract (a / b) := by
  unfold jsMod jsTrunc
  have hab : 0 ≤ a / b := div_nonneg ha hb.le
  rw [if_pos hab, Int.fract]
  have h1 : b * (a / b) = a := by field_simp
  rw [mul_sub, h1]

theorem jsMod_nonneg_bounds (a b : ℚ) (ha : 0 ≤ a) (hb : 0 < b) :
    0 ≤ jsMod a b ∧ jsMod a b < b := by
  rw [jsMod_eq_fract_mul a b ha hb]
  refine ⟨mul_nonneg hb.le (Int.fract_nonneg _), ?_⟩
  calc b * Int.fract (a / b) < b * 1 := by
        exact (mul_lt_mul_left hb).mpr (Int.fract_lt_one _)
    _ = b := mul_one b

theorem jsMod_neg_eq (a b : ℚ) (ha : a < 0) (hb : 0 < b) :
    jsMod a b = -(jsMod (-a) b) := by
  unfold jsMod jsTrunc
  have h1 : ¬ (0 ≤ a / b) := by
    rw [not_le]; exact div_neg_of_neg_of_pos ha hb
  have h2 : 0 ≤ -a / b := div_nonneg (by linarith) hb.le
  rw [if_neg h1, if_pos h2]
  have hc : (⌈a / b⌉ : ℤ) = -⌊-(a / b)⌋ := by
    rw [Int.floor_neg]; ring
  rw [hc, neg_div]
  push_cast
  ring

theorem jsMod_bounds (a b : ℚ) (hb : 0 < b) :
    -b < jsMod a b ∧ jsMod a b < b := by
  rcases le_or_lt 0 a with ha | ha
  · have h := jsMod_nonneg_bounds a b ha hb
    exact ⟨by linarith [h.1], h.2⟩
  · rw [jsMod_neg_eq a b ha hb]
    have h := jsMod_nonneg_bounds (-a) b (by linarith) hb
    exact ⟨by linarith [h.2], by linarith [h.1]⟩

theorem jsMod_sub_int (a b : ℚ) : ∃ k : ℤ, jsMod a b = a - (k : ℚ) * b :=
  ⟨jsTrunc (a / b), by unfold jsMod; ring⟩

theorem wrap_bounds (v w : ℚ) (hw : 0 < w) : 0 ≤ wrap v w ∧ wrap v w < w := by
  unfold wrap
  have h := jsMod_bounds v w hw
  exact jsMod_nonneg_bounds _ w (by linarith [h.1]) hw

theorem wrap_sub_int (v w : ℚ) : ∃ k : ℤ, wrap v w = v - (k : ℚ) * w := by
  unfold wrap
  obtain ⟨k1, h1⟩ := jsMod_sub_int v w
  obtain ⟨k2, h2⟩ := jsMod_sub_int (jsMod v w + w) w
  refine ⟨k1 + k2 - 1, ?_⟩
  rw [h2, h1]
  push_cast
  ring

theorem residue_unique (x y w : ℚ) (hw : 0 < w)
    (hx : 0 ≤ x ∧ x < w) (hy : 0 ≤ y ∧ y < w)
    (k : ℤ) (h : x - y = (k : ℚ) * w) : x = y := by
  have h1 : (k : ℚ) * w < w := by linarith [hx.2, hy.1]
  have h2 : -w < (k : ℚ) * w := by linarith [hx.1, hy.2]
  have hk1 : (k : ℚ) < 1 := by
    by_contra hc
    push_neg at hc
    nlinarith
  have hk2 : (-1 : ℚ) < (k : ℚ) := by
    by_contra hc
    push_neg at hc
    nlinarith
  have hk : k = 0 := by
    have ha : k < 1 := by exact_mod_cast hk1
    have hb : (-1 : ℤ) < k := by exact_mod_cast hk2
    omega
  rw [hk] at h
  push_cast at h
  linarith

theorem wrap_congr (a₁ a₂ w : ℚ) (hw : 0 < w) (k : ℤ)
    (h : a₁ - a₂ = (k : ℚ) * w) : wrap a₁ w = wrap a₂ w := by
  obtain ⟨k1, h1⟩ := wrap_sub_int a₁ w
  obtain ⟨k2, h2⟩ := wrap_sub_int a₂ w
  refine residue_unique _ _ w hw (wrap_bounds _ _ hw) (wrap_bounds _ _ hw)
    (k - k1 + k2) ?_
  rw [h1, h2]
  push_cast
  linear_combination h

theorem wrap_eq_of_bounds (x w : ℚ) (hw : 0 < w) (h0 : 0 ≤ x) (h1 : x < w) :
    wrap x w = x := by
  obtain ⟨k, hk⟩ := wrap_sub_int x w
  refine residue_unique _ _ w hw (wrap_bounds _ _ hw) ⟨h0, h1⟩ (-k) ?_
  rw [hk]
  push_cast
  ring

/-- C1: for `totalWidth > 0` the shortest wrapping delta has magnitude at most
`totalWidth/2`, moving by it reaches the target's wrapped position, and the
delta is `0` when `current = target`. -/
theorem shortestWrappingDelta_spec (current target totalWidth : ℚ)
    (hW : 0 < totalWidth) :
    |shortestWrappingDelta current target totalWidth| ≤ totalWidth / 2 ∧
    wrap (current + shortestWrappingDelta current target totalWidth) totalWidth
      = wrap target totalWidth ∧
    (current = target → shortestWrappingDelta current target totalWidth = 0) := by
  have hc := wrap_bounds current totalWidth hW
  have ht := wrap_bounds target totalWidth hW
  obtain ⟨kc, hkc⟩ := wrap_sub_int current totalWidth
  obtain ⟨kt, hkt⟩ := wrap_sub_int target totalWidth
  have htfix : wrap (wrap target totalWidth) totalWidth = wrap target totalWidth :=
    wrap_eq_of_bounds _ _ hW ht.1 ht.2
  simp only [shortestWrappingDelta]
  split_ifs with h1 h2 h3
  · -- first adjustment taken and second taken: impossible
    exfalso
    linarith [hc.1, hc.2, ht.1, ht.2]
  · -- delta was > totalWidth/2, corrected downward by totalWidth
    refine ⟨abs_le.mpr ⟨by linarith, by linarith⟩, ?_, ?_⟩
    · refine wrap_congr _ _ _ hW (kc - kt - 1) ?_
      rw [hkc] at *
      rw [hkt] at *
      push_cast
      ring
    · intro heq
      subst heq
      exfalso
      linarith
  · -- delta was < -totalWidth/2, corrected upward by totalWidth
    refine ⟨abs_le.mpr ⟨by linarith, by linarith⟩, ?_, ?_⟩
    · refine wrap_congr _ _ _ hW (kc - kt + 1) ?_
      rw [hkc] at *
      rw [hkt] at *
      push_cast
      ring
    · intro heq
      subst heq
      exfalso
      linarith
  · -- no correction needed
    refine ⟨abs_le.mpr ⟨by linarith, by linarith⟩, ?_, ?_⟩
    · refine wrap_congr _ _ _ hW (kc - kt) ?_
      rw [hkc] at *
      rw [hkt] at *
      push_cast
      ring
    · intro heq
      subst heq
      exact sub_self _

/-- Witness for `shortestWrappingDelta_spec` at a concrete input. -/
theorem shortestWrappingDelta_spec_witness :
    (0 : ℚ) < 100 ∧
    |shortestWrappingDelta 5 25 100| ≤ 100 / 2 ∧
    wrap (5 + shortestWrappingDelta 5 25 100) 100 = wrap 25 100 ∧
    ((5 : ℚ) = 25 → shortestWrappingDelta 5 25 100 = 0) :=
  ⟨by norm_num, shortestWrappingDelta_spec 5 25 100 (by norm_num)⟩

/-- C6: in the spec's marquee-selection scenario (strip of width 100, item of
width 10 at base position 70, current offset 5) the target offset is 25 and
the installed `ShiftAnimation` delta is 20, the candidate of smaller
magnitude (the other candidate is `20 - 100 = -80`). -/
theorem marqueeSelection_scenario :
    handleSelectTargetOffset 70 10 100 = 25 ∧
    handleSelectDelta 5 70 10 100 = 20 ∧
    |handleSelectDelta 5 70 10 100| ≤ |handleSelectDelta 5 70 10 100 - 100| := by
  have h1 : handleSelectTargetOffset 70 10 100 = 25 := by
    norm_num [handleSelectTargetOffset, wrap, jsMod, jsTrunc]
  have h2 : handleSelectDelta 5 70 10 100 = 20 := by
    norm_num [handleSelectDelta, h1, shortestWrappingDelta, wrap, jsMod, jsTrunc]
  refine ⟨h1, h2, ?_⟩
  rw [h2]
  norm_num

/-! ## Smooth scroll tracker (`SmoothScrollContext.jsx`) -/

/-- Linear interpolation, `lerp` in `SmoothScrollContext.jsx` (lines 41-43). -/
def lerp (start finish factor : ℚ) : ℚ := start + (finish - start) * factor

/-- Mutable scroll state held in `scrollDataRef` (`current`, `target`, `ease`). -/
structure ScrollData where
  current : ℚ
  target : ℚ
  ease : ℚ

/--
One frame of the convergence loop `updateScroll` (lines 70-102), restricted to
its effect on `current`: interpolate toward `target`; if the remaining
difference exceeds 0.5 keep the interpolated value (and reschedule), otherwise
snap `current` to `target` exactly.
-/
def updateScrollStep (data : ScrollData) : ScrollData :=
  let cur := lerp data.current data.target data.ease
  if 1 / 2 < |data.target - cur| then { data with current := cur }
  else { data with current := data.target }

/-- Remaining scroll error of a state. -/
def scrollErr (data : ScrollData) : ℚ := |data.target - data.current|

/-- The rounding `Math.round(current * 100) / 100` applied before notifying
listeners (line 80). -/
def roundHundredth (q : ℚ) : ℚ := (round (q * 100) : ℤ) / 100

/-- Number of listener callbacks actually invoked by
`scrollListenersRef.current.forEach(listener => listener(rounded))` (line 89):
the callbacks run in order and a thrown exception stops the iteration after
the throwing callback. -/
def notifyCount : List (ℚ → Except Unit Unit) → ℚ → ℕ
  | [], _ => 0
  | f :: fs, v =>
    match f v with
    | Except.ok _ => notifyCount fs v + 1
    | Except.error _ => 1

/-- Whether the notification pass at line 89 throws (no per-listener
isolation exists in the source). -/
def notifyThrows : List (ℚ → Except Unit Unit) → ℚ → Bool
  | [], _ => false
  | f :: fs, v =>
    match f v with
    | Except.ok _ => notifyThrows fs v
    | Except.error _ => true

/--
Observable outcome of one `updateScroll` frame with respect to its listeners
(lines 77-101): the number of listeners invoked with the rounded value, and
whether the frame schedules another frame.  A throw at line 89 propagates out
of `updateScroll`, so the `diff > 0.5` check at line 93 and the
`requestAnimationFrame` call at line 94 are never reached.
-/
def updateScrollNotify (listeners : List (ℚ → Except Unit Unit))
    (data : ScrollData) : ℕ × Bool :=
  let cur := lerp data.current data.target data.ease
  let rounded := roundHundredth cur
  (notifyCount listeners rounded,
   !(notifyThrows listeners rounded) && decide (1 / 2 < |data.target - cur|))

/-- Content height minus viewport height, the `maxScroll` bound. -/
def maxScroll (contentScrollHeight viewportHeight : ℚ) : ℚ :=
  contentScrollHeight - viewportHeight

/--
Programmatic scroll, `scrollTo` in `SmoothScrollContext.jsx` (lines 213-232),
for a mounted content element of height `contentScrollHeight` and a viewport
of height `viewportHeight`: clamp the requested position to
`[0, maxScroll]`; when `instant`, snap both `current` and `target` to it.
-/
def scrollTo (data : ScrollData) (contentScrollHeight viewportHeight position : ℚ)
    (instant : Bool) : ScrollData :=
  let targetPos := max 0 (min position (maxScroll contentScrollHeight viewportHeight))
  if instant then { data with current := targetPos, target := targetPos }
  else { data with target := targetPos }

/-- Accessor `getScrollPosition` (lines 264-267): returns `current`. -/
def getScrollPosition (data : ScrollData) : ℚ := data.current

/-- A listener that always throws. -/
def throwingListener : ℚ → Except Unit Unit := fun _ => Except.error ()

/-- A listener that always succeeds. -/
def okListener : ℚ → Except Unit Unit := fun _ => Except.ok ()

/-! ## Lemmas about the scroll loop -/

theorem updateScrollStep_target (d : ScrollData) :
    (updateScrollStep d).target = d.target := by
  simp only [updateScrollStep]
  split <;> rfl

theorem updateScrollStep_ease (d : ScrollData) :
    (updateScrollStep d).ease = d.ease := by
  simp only [updateScrollStep]
  split <;> rfl

theorem iterate_updateScrollStep_target (d : ScrollData) (n : ℕ) :
    (updateScrollStep^[n] d).target = d.target := by
  induction n with
  | zero => rfl
  | succ n ih => rw [Function.iterate_succ_apply', updateScrollStep_target, ih]

theorem iterate_updateScrollStep_ease (d : ScrollData) (n : ℕ) :
    (updateScrollStep^[n] d).ease = d.ease := by
  induction n with
  | zero => rfl
  | succ n ih => rw [Function.iterate_succ_apply', updateScrollStep_ease, ih]

theorem lerp_err (d : ScrollData) :
    d.target - lerp d.current d.target d.ease
      = (d.target - d.current) * (1 - d.ease) := by
  unfold lerp
  ring

theorem updateScrollStep_err_le (d : ScrollData) (h1 : d.ease ≤ 1) :
    scrollErr (updateScrollStep d) ≤ scrollErr d * (1 - d.ease) := by
  have he : |d.target - lerp d.current d.target d.ease|
      = |d.target - d.current| * (1 - d.ease) := by
    rw [lerp_err, abs_mul, abs_of_nonneg (by linarith : (0:ℚ) ≤ 1 - d.ease)]
  simp only [updateScrollStep, scrollErr]
  split
  · simpa using he.le
  · simp only [sub_self, abs_zero]
    exact mul_nonneg (abs_nonneg _) (by linarith)

theorem iterate_updateScrollStep_err (d : ScrollData) (h0 : 0 ≤ d.ease)
    (h1 : d.ease ≤ 1) (n : ℕ) :
    scrollErr (updateScrollStep^[n] d) ≤ scrollErr d * (1 - d.ease) ^ n := by
  induction n with
  | zero => simp
  | succ n ih =>
    rw [Function.iterate_succ_apply']
    have hstep := updateScrollStep_err_le (updateScrollStep^[n] d)
      (by rw [iterate_updateScrollStep_ease]; exact h1)
    rw [iterate_updateScrollStep_ease] at hstep
    calc scrollErr (updateScrollStep (updateScrollStep^[n] d))
        ≤ scrollErr (updateScrollStep^[n] d) * (1 - d.ease) := hstep
      _ ≤ scrollErr d * (1 - d.ease) ^ n * (1 - d.ease) := by
          exact mul_le_mul_of_nonneg_right ih (by linarith)
      _ = scrollErr d * (1 - d.ease) ^ (n + 1) := by ring

theorem updateScrollStep_snap (d : ScrollData) (h0 : 0 ≤ d.ease)
    (h1 : d.ease ≤ 1) (hd : scrollErr d ≤ 1 / 2) :
    (updateScrollStep d).current = d.target := by
  simp only [updateScrollStep]
  have he : |d.target - lerp d.current d.target d.ease|
      = |d.target - d.current| * (1 - d.ease) := by
    rw [lerp_err, abs_mul, abs_of_nonneg (by linarith : (0:ℚ) ≤ 1 - d.ease)]
  rw [if_neg]
  rw [not_lt, he]
  have habs := abs_nonneg (d.target - d.current)
  have : |d.target - d.current| * (1 - d.ease) ≤ |d.target - d.current| * 1 := by
    exact mul_le_mul_of_nonneg_left (by linarith) habs
  simp only [scrollErr] at hd
  linarith

/-- C3: an instant `scrollTo` on a mounted container leaves
`getScrollPosition` equal to the requested position clamped to
`[0, contentHeight - viewportHeight]`, with `current = target`. -/
theorem scrollTo_instant_clamps (data : ScrollData)
    (contentScrollHeight viewportHeight position : ℚ)
    (hHV : viewportHeight ≤ contentScrollHeight) :
    getScrollPosition (scrollTo data contentScrollHeight viewportHeight position true)
      = min (max position 0) (contentScrollHeight - viewportHeight) ∧
    (scrollTo data contentScrollHeight viewportHeight position true).current
      = (scrollTo data contentScrollHeight viewportHeight position true).target := by
  constructor
  · show max 0 (min position (maxScroll contentScrollHeight viewportHeight))
      = min (max position 0) (contentScrollHeight - viewportHeight)
    unfold maxScroll
    have hm : (0 : ℚ) ≤ contentScrollHeight - viewportHeight := by linarith
    rw [max_min_distrib_left, max_eq_right hm, max_comm]
  · rfl

/-- Witness for `scrollTo_instant_clamps` at the spec's scroll-to-element
scenario numbers (content 3000, viewport 900, request 850). -/
theorem scrollTo_instant_clamps_witness :
    (900 : ℚ) ≤ 3000 ∧
    getScrollPosition (scrollTo ⟨0, 0, 2/25⟩ 3000 900 850 true)
      = min (max 850 0) (3000 - 900) :=
  ⟨by norm_num, (scrollTo_instant_clamps ⟨0, 0, 2/25⟩ 3000 900 850 (by norm_num)).1⟩

/-- C4: for any ease factor in `(0,1)`, each frame strictly shrinks the error
whenever it exceeds the 0.5px threshold, and from any start the loop reaches a
state where `current` equals `target` exactly (the snap) in finitely many
frames. -/
theorem smoothScroll_converges (e : ℚ) (he0 : 0 < e) (he1 : e < 1) :
    (∀ c t : ℚ, 1 / 2 < |t - c| →
      |t - (updateScrollStep ⟨c, t, e⟩).current| < |t - c|) ∧
    (∀ c t : ℚ, ∃ n : ℕ, (updateScrollStep^[n] ⟨c, t, e⟩).current = t) := by
  constructor
  · intro c t herr
    have he : |t - lerp c t e| = |t - c| * (1 - e) := by
      have h := lerp_err ⟨c, t, e⟩
      simp only at h
      rw [h, abs_mul, abs_of_nonneg (by linarith : (0:ℚ) ≤ 1 - e)]
    simp only [updateScrollStep]
    split
    · simp only [he]
      have hpos : (0 : ℚ) < |t - c| := by linarith
      calc |t - c| * (1 - e) < |t - c| * 1 := by
            exact mul_lt_mul_of_pos_left (by linarith) hpos
        _ = |t - c| := mul_one _
    · simp only [sub_self, abs_zero]
      linarith
  · intro c t
    set d : ScrollData := ⟨c, t, e⟩ with hd
    set E := scrollErr d with hE
    have hE0 : 0 ≤ E := abs_nonneg _
    obtain ⟨n, hn⟩ := exists_pow_lt_of_lt_one
      (show (0:ℚ) < 1 / (2 * (E + 1)) from div_pos (by norm_num) (by linarith))
      (show 1 - e < 1 by linarith)
    refine ⟨n + 1, ?_⟩
    have hiter := iterate_updateScrollStep_err d
      (by simp [hd]; linarith) (by simp [hd]; linarith) n
    have hsmall : scrollErr (updateScrollStep^[n] d) ≤ 1 / 2 := by
      have hpow : (0:ℚ) ≤ (1 - e) ^ n := pow_nonneg (by linarith) n
      have h2 : E * (1 - e) ^ n ≤ E * (1 / (2 * (E + 1))) := by
        rcases eq_or_lt_of_le hE0 with hz | hpos
        · rw [← hz]; simp
        · exact (mul_le_mul_left hpos).mpr hn.le
      have h3 : E * (1 / (2 * (E + 1))) ≤ 1 / 2 := by
        rw [mul_one_div, div_le_div_iff (by linarith) (by norm_num)]
        linarith
      calc scrollErr (updateScrollStep^[n] d) ≤ E * (1 - e) ^ n := hiter
        _ ≤ 1 / 2 := h2.trans h3
    rw [Function.iterate_succ_apply']
    have hcur := updateScrollStep_snap (updateScrollStep^[n] d)
      (by rw [iterate_updateScrollStep_ease]; simp [hd]; linarith)
      (by rw [iterate_updateScrollStep_ease]; simp [hd]; linarith)
      hsmall
    rw [hcur, iterate_updateScrollStep_target]

/-- Witness for `smoothScroll_converges` at ease `1/2`, start `0`, target `10`. -/
theorem smoothScroll_converges_witness :
    |(10 : ℚ) - (updateScrollStep ⟨0, 10, 1/2⟩).current| < |(10 : ℚ) - 0| :=
  (smoothScroll_converges (1/2) (by norm_num) (by norm_num)).1 0 10 (by norm_num)

/-- C5 evaluation: the notification pass of `updateScroll` has no per-listener
isolation.  With listeners `[throwing, ok]` (state `current = 0`,
`target = 100`, `ease = 0.08`) only one of the two listeners is invoked and
the frame does not reschedule itself, whereas with `[ok, ok]` both listeners
run and the frame reschedules. -/
theorem scrollListener_throw_halts :
    (updateScrollNotify [throwingListener, okListener] ⟨0, 100, 2/25⟩).1 = 1 ∧
    (updateScrollNotify [throwingListener, okListener] ⟨0, 100, 2/25⟩).2 = false ∧
    (updateScrollNotify [okListener, okListener] ⟨0, 100, 2/25⟩).1 = 2 ∧
    (updateScrollNotify [okListener, okListener] ⟨0, 100, 2/25⟩).2 = true := by
  have h1 : lerp 0 100 (2/25 : ℚ) = 8 := by norm_num [lerp]
  have h2 : roundHundredth (8 : ℚ) = 8 := by
    norm_num [roundHundredth]
  refine ⟨?_, ?_, ?_, ?_⟩ <;>
    simp [updateScrollNotify, h1, h2, notifyCount, notifyThrows,
      throwingListener, okListener] <;> norm_num

/-! ## Pin-and-scale transform engine (`IntroSection.jsx`)

Two variants of `updateTransform` exist.  The `svh` variant (lines 293-358)
derives its phase thresholds from the viewport height
(`growPhaseEnd = vh * 1.1`, `holdDuration = vh * 0.05`); the fixed variant
(lines 860-922) uses `growPhaseEnd = 1000`, `holdDuration = 50`.  The branch
bodies are embedded below as functions of the configuration so that the
phase-boundary claims can be stated for any valid configuration. -/

/-- GROWING branch scale (both variants):
`initialScale + (scrollProgress / growPhaseEnd) * (1.05 - initialScale)`. -/
def growingScale (initialScale growPhaseEnd s : ℚ) : ℚ :=
  initialScale + (s / growPhaseEnd) * (21/20 - initialScale)

/-- GROWING branch translateY, svh variant (line 323):
`-106 + progress * 106`. -/
def growingTranslateYSvh (growPhaseEnd s : ℚ) : ℚ :=
  -106 + (s / growPhaseEnd) * 106

/-- HOLD and RELEASE branch scale (both variants): constant `1.05`. -/
def holdScale : ℚ := 21/20

/-- HOLD branch translateY, svh variant (lines 327-329):
`((s - growPhaseEnd) / vh) * 100`. -/
def holdTranslateYSvh (growPhaseEnd vh s : ℚ) : ℚ :=
  ((s - growPhaseEnd) / vh) * 100

/-- RELEASE branch translateY, svh variant (lines 333-334):
`(holdDuration / vh) * 100`. -/
def releaseTranslateYSvh (holdDuration vh : ℚ) : ℚ :=
  (holdDuration / vh) * 100

/-- GROWING branch translateY, fixed variant (line 890): `30 - progress * 30`. -/
def growingTranslateYFixed (growPhaseEnd s : ℚ) : ℚ :=
  30 - (s / growPhaseEnd) * 30

/-- HOLD branch translateY, fixed variant (line 894): constant `0`. -/
def holdTranslateYFixed : ℚ := 0

/-- RELEASE branch translateY, fixed variant (line 898): constant `0`. -/
def releaseTranslateYFixed : ℚ := 0

/--
Piecewise `(scale, translateY)` of the svh-variant `updateTransform`
(`IntroSection.jsx` lines 293-335), as a function of viewport height,
screen width and the scroll offset.
-/
def heroTransformSvh (vh screenWidth scrollProgress : ℚ) : ℚ × ℚ :=
  if screenWidth < 768 then (1, 0)
  else
    let growPhaseEnd := vh * (11/10)
    let holdDuration := vh * (1/20)
    let holdPhaseEnd := growPhaseEnd + holdDuration
    let initialScale : ℚ := if screenWidth < 1024 then 11/20 else 23/50
    if scrollProgress ≤ growPhaseEnd then
      (growingScale initialScale growPhaseEnd scrollProgress,
       growingTranslateYSvh growPhaseEnd scrollProgress)
    else if scrollProgress ≤ holdPhaseEnd then
      (holdScale, holdTranslateYSvh growPhaseEnd vh scrollProgress)
    else
      (holdScale, releaseTranslateYSvh holdDuration vh)

/--
Piecewise `(scale, translateY)` of the fixed-1000px `updateTransform`
(`IntroSection.jsx` lines 860-899).
-/
def heroTransformFixed (screenWidth scrollProgress : ℚ) : ℚ × ℚ :=
  if screenWidth < 768 then (1, 0)
  else
    let growPhaseEnd : ℚ := 1000
    let holdPhaseEnd : ℚ := growPhaseEnd + 50
    let initialScale : ℚ := if screenWidth < 1024 then 12/25 else 2/5
    if scrollProgress ≤ growPhaseEnd then
      (growingScale initialScale growPhaseEnd scrollProgress,
       growingTranslateYFixed growPhaseEnd scrollProgress)
    else if scrollProgress ≤ holdPhaseEnd then
      (holdScale, holdTranslateYFixed)
    else
      (holdScale, releaseTranslateYFixed)

/-- C2: the pin-and-scale output is continuous at both phase boundaries: the
GROWING branch at `scrollOffset = growPhaseEnd` agrees with the HOLD branch
there (scale `1.05`, translateY equal), and the HOLD branch at
`scrollOffset = growPhaseEnd + holdDuration` agrees with the RELEASE branch,
for any configuration with `growPhaseEnd > 0` and `holdDuration ≥ 0` (svh
variant shown with its viewport-height compensation, fixed variant with its
constant translateY). -/
theorem heroTransform_phase_continuity (g h vh i : ℚ) (hg : 0 < g)
    (hh : 0 ≤ h) :
    growingScale i g g = holdScale ∧
    growingTranslateYSvh g g = holdTranslateYSvh g vh g ∧
    holdTranslateYSvh g vh (g + h) = releaseTranslateYSvh h vh ∧
    growingTranslateYFixed g g = holdTranslateYFixed ∧
    holdTranslateYFixed = releaseTranslateYFixed := by
  have hgg : g / g = 1 := div_self hg.ne'
  refine ⟨?_, ?_, ?_, ?_, rfl⟩
  · unfold growingScale holdScale
    rw [hgg]
    ring
  · unfold growingTranslateYSvh holdTranslateYSvh
    rw [hgg, sub_self, zero_div]
    ring
  · unfold holdTranslateYSvh releaseTranslateYSvh
    rw [add_sub_cancel_left]
  · unfold growingTranslateYFixed holdTranslateYFixed
    rw [hgg]
    ring

/-- Witness for `heroTransform_phase_continuity` at the spec's phase-boundary
scenario (`growPhaseEnd = 1000`, `holdDuration = 50`, `initialScale = 0.4`). -/
theorem heroTransform_phase_continuity_witness :
    ((0 : ℚ) < 1000 ∧ (0 : ℚ) ≤ 50) ∧ growingScale (2/5) 1000 1000 = holdScale :=
  ⟨⟨by norm_num, by norm_num⟩,
    (heroTransform_phase_continuity 1000 50 1000 (2/5) (by norm_num)
      (by norm_num)).1⟩

/-! ## JavaScript number semantics for degenerate geometry (claim C7)

The progress computations in the source divide by quantities derived from the
viewport height with no clamping of the denominator.  To state what the
JavaScript engine actually produces there, a minimal IEEE-754-style number
type is needed (exact rationals plus `NaN` and signed infinities). -/

/-- JavaScript number: a finite (here exact rational) value, NaN, or a signed
infinity. -/
inductive JSNum where
  | fin (q : ℚ)
  | nan
  | posInf
  | negInf
deriving DecidableEq

/-- IEEE-style division, including `0/0 = NaN` and `x/0 = ±Infinity`. -/
def jsDiv : JSNum → JSNum → JSNum
  | .nan, _ => .nan
  | _, .nan => .nan
  | .fin a, .fin b =>
    if b = 0 then (if a = 0 then .nan else if 0 < a then .posInf else .negInf)
    else .fin (a / b)
  | .fin _, .posInf => .fin 0
  | .fin _, .negInf => .fin 0
  | .posInf, .fin b => if 0 ≤ b then .posInf else .negInf
  | .negInf, .fin b => if 0 ≤ b then .negInf else .posInf
  | .posInf, .posInf => .nan
  | .posInf, .negInf => .nan
  | .negInf, .posInf => .nan
  | .negInf, .negInf => .nan

/-- IEEE-style multiplication (`0 * ±Infinity = NaN`). -/
def jsMul : JSNum → JSNum → JSNum
  | .nan, _ => .nan
  | _, .nan => .nan
  | .fin a, .fin b => .fin (a * b)
  | .fin a, .posInf => if a = 0 then .nan else if 0 < a then .posInf else .negInf
  | .fin a, .negInf => if a = 0 then .nan else if 0 < a then .negInf else .posInf
  | .posInf, .fin b => if b = 0 then .nan else if 0 < b then .posInf else .negInf
  | .negInf, .fin b => if b = 0 then .nan else if 0 < b then .negInf else .posInf
  | .posInf, .posInf => .posInf
  | .posInf, .negInf => .negInf
  | .negInf, .posInf => .negInf
  | .negInf, .negInf => .posInf

/-- IEEE-style addition (`Infinity + -Infinity = NaN`). -/
def jsAdd : JSNum → JSNum → JSNum
  | .nan, _ => .nan
  | _, .nan => .nan
  | .fin a, .fin b => .fin (a + b)
  | .fin _, .posInf => .posInf
  | .fin _, .negInf => .negInf
  | .posInf, .fin _ => .posInf
  | .negInf, .fin _ => .negInf
  | .posInf, .posInf => .posInf
  | .negInf, .negInf => .negInf
  | .posInf, .negInf => .nan
  | .negInf, .posInf => .nan

/-- Whether a JavaScript number is a finite value. -/
def JSNum.isFinite : JSNum → Bool
  | .fin _ => true
  | _ => false

/--
The GROWING-branch scale of the svh-variant `updateTransform`
(`IntroSection.jsx` lines 319-322) under JavaScript arithmetic:
`initialScale + (scrollProgress / growPhaseEnd) * (1.05 - initialScale)`,
with no clamping of the denominator `growPhaseEnd`.
-/
def growingScaleJS (initialScale growPhaseEnd scrollProgress : ℚ) : JSNum :=
  jsAdd (.fin initialScale)
    (jsMul (jsDiv (.fin scrollProgress) (.fin growPhaseEnd))
      (.fin (21/20 - initialScale)))

/--
Scale produced by the svh-variant `updateTransform` under JavaScript
arithmetic, as a function of viewport height, screen width and scroll offset
(`growPhaseEnd = vh * 1.1`, lines 307-322).
-/
def heroScaleJS (vh screenWidth scrollProgress : ℚ) : JSNum :=
  if screenWidth < 768 then .fin 1
  else
    let growPhaseEnd := vh * (11/10)
    let holdPhaseEnd := growPhaseEnd + vh * (1/20)
    let initialScale : ℚ := if screenWidth < 1024 then 11/20 else 23/50
    if scrollProgress ≤ growPhaseEnd then
      growingScaleJS initialScale growPhaseEnd scrollProgress
    else if scrollProgress ≤ holdPhaseEnd then .fin (21/20)
    else .fin (21/20)

/-- C7 evaluation: with a zero-height viewport (`vh = 0`, so
`growPhaseEnd = 0`) and `scrollOffset = 0` on a desktop-width screen, the
GROWING branch computes `progress = 0 / 0 = NaN` and the resulting scale is
NaN — not a finite "fully at rest" value, because no denominator in
`updateTransform` is clamped away from zero. -/
theorem heroScaleJS_nan_at_zero_viewport :
    heroScaleJS 0 1280 0 = JSNum.nan ∧
    (heroScaleJS 0 1280 0).isFinite = false := by
  constructor
  · norm_num [heroScaleJS, growingScaleJS, jsDiv, jsMul, jsAdd]
  · norm_num [heroScaleJS, growingScaleJS, jsDiv, jsMul, jsAdd, JSNum.isFinite]

/-! ## Marquee layout construction (`FloatingGalleryHero.jsx` lines 159-227) -/

/-- Row size multiplier `ROW_DEPTH_SCALE = [0.55, 1.0, 1.5]` (line 50). -/
def ROW_DEPTH_SCALE : List ℚ := [11/20, 1, 3/2]

/-- Base scale so that about `MAX_VISIBLE = 9` items span the viewport
(lines 162-167): `(100 / min N 9) / (avgWidth + MARQUEE_GAP_VW)` with
`MARQUEE_GAP_VW = 1`. -/
def marqueeBaseScale (widthsVw : List ℚ) : ℚ :=
  ((100 : ℚ) / ((min widthsVw.length 9 : ℕ) : ℚ))
    / (widthsVw.sum / (widthsVw.length : ℚ) + 1)

/-- Helper for the row assignment `rows[i] = i % 3` and the per-item scaling
`w * baseScale * ROW_DEPTH_SCALE[rows[i]]` (lines 170-171). -/
def scaleByRows (baseScale : ℚ) : ℕ → List ℚ → List ℚ
  | _, [] => []
  | i, w :: ws =>
    w * baseScale * ROW_DEPTH_SCALE.getD (i % 3) 0 :: scaleByRows baseScale (i + 1) ws

/-- Scaled display widths of the marquee items (line 171). -/
def marqueeScaledWidths (widthsVw : List ℚ) : List ℚ :=
  scaleByRows (marqueeBaseScale widthsVw) 0 widthsVw

/-- Scaled gap `MARQUEE_GAP_VW * baseScale` (line 172). -/
def marqueeScaledGap (widthsVw : List ℚ) : ℚ := 1 * marqueeBaseScale widthsVw

/-- Natural strip width: the sum of `scaledWidths[i] + scaledGap`
(lines 175-178). -/
def marqueeNaturalTotal (widthsVw : List ℚ) : ℚ :=
  ((marqueeScaledWidths widthsVw).map (· + marqueeScaledGap widthsVw)).sum

/-- JavaScript `Math.max(...)` over a nonempty list. -/
def listMax : List ℚ → ℚ
  | [] => 0
  | [x] => x
  | x :: y :: t => max x (listMax (y :: t))

/-- Widest scaled item, `Math.max(...scaledWidths)` (line 181). -/
def marqueeMaxScaledWidth (widthsVw : List ℚ) : ℚ :=
  listMax (marqueeScaledWidths widthsVw)

/-- Total strip width `max(naturalTotal, 100 + maxWidth + scaledGap)`
(lines 182-183). -/
def marqueeTotalWidth (widthsVw : List ℚ) : ℚ :=
  max (marqueeNaturalTotal widthsVw)
    (100 + marqueeMaxScaledWidth widthsVw + marqueeScaledGap widthsVw)

theorem marqueeBaseScale_pos (widthsVw : List ℚ) (hne : widthsVw ≠ [])
    (hw : ∀ x ∈ widthsVw, 0 ≤ x) : 0 < marqueeBaseScale widthsVw := by
  unfold marqueeBaseScale
  have hlen : 0 < widthsVw.length := List.length_pos.mpr hne
  have hmin : 0 < min widthsVw.length 9 := lt_min hlen (by norm_num)
  have hminq : (0 : ℚ) < ((min widthsVw.length 9 : ℕ) : ℚ) := by
    exact_mod_cast hmin
  have hsum : 0 ≤ widthsVw.sum := List.sum_nonneg hw
  have havg : (0 : ℚ) ≤ widthsVw.sum / (widthsVw.length : ℚ) :=
    div_nonneg hsum (by positivity)
  exact div_pos (div_pos (by norm_num) hminq) (by linarith)

/-- C8: for a nonempty list of (nonnegative) item widths, the constructed
strip is at least one viewport (100vw) plus the widest scaled item wide, so
the wrap point is never visible. -/
theorem marqueeTotalWidth_ge (widthsVw : List ℚ) (hne : widthsVw ≠ [])
    (hw : ∀ x ∈ widthsVw, 0 ≤ x) :
    100 + marqueeMaxScaledWidth widthsVw ≤ marqueeTotalWidth widthsVw := by
  have hgap : 0 < marqueeScaledGap widthsVw := by
    unfold marqueeScaledGap
    have := marqueeBaseScale_pos widthsVw hne hw
    linarith
  unfold marqueeTotalWidth
  have h : 100 + marqueeMaxScaledWidth widthsVw
      ≤ 100 + marqueeMaxScaledWidth widthsVw + marqueeScaledGap widthsVw := by
    linarith
  exact h.trans (le_max_right _ _)

/-- Witness for `marqueeTotalWidth_ge` on a concrete width list (the first
three desktop gallery widths, in vw). -/
theorem marqueeTotalWidth_ge_witness :
    (([18, 11, 27] : List ℚ) ≠ [] ∧ ∀ x ∈ ([18, 11, 27] : List ℚ), 0 ≤ x) ∧
    100 + marqueeMaxScaledWidth [18, 11, 27] ≤ marqueeTotalWidth [18, 11, 27] :=
  ⟨⟨by simp, by norm_num⟩,
    marqueeTotalWidth_ge [18, 11, 27] (by simp) (by norm_num)⟩

/-! ## Marquee tick offset update (`FloatingGalleryHero.jsx` lines 384-427) -/

/--
Offset update of one tick frame when a `ShiftAnimation` is active
(lines 399-416): `startOffset + delta * eased`, normalized into
`[0, totalWidth)` by the wrap idiom.
-/
def marqueeAnimOffset (totalWidth startOffset delta eased : ℚ) : ℚ :=
  wrap (startOffset + delta * eased) totalWidth

/--
Offset update of one tick frame under ambient mouse-driven drift
(lines 417-427): `offset += (BASE_SPEED + mouseX * MOUSE_SPEED) * (dt/16.67)`
with `dt = min(elapsed, 50)`, then one conditional wrap step.
-/
def marqueeDriftOffset (totalWidth offset mouseX dtRaw : ℚ) : ℚ :=
  let dt := min dtRaw 50
  let speed := 8/1000 + mouseX * (8/100)
  let o := offset + speed * (dt / (1667/100))
  if totalWidth ≤ o then o - totalWidth
  else if o < 0 then o + totalWidth
  else o

/--
Offset after one tick of the marquee rAF loop: driven by the active
`ShiftAnimation` if one exists, otherwise by ambient drift when the page is
not scrolled and no click transition is in progress, otherwise unchanged.
-/
def marqueeTickOffset (totalWidth offset mouseX dtRaw : ℚ)
    (anim : Option (ℚ × ℚ × ℚ)) (scrollPaused isTransitioning : Bool) : ℚ :=
  match anim with
  | some (s, d, eased) => marqueeAnimOffset totalWidth s d eased
  | none =>
    if !scrollPaused && !isTransitioning then
      marqueeDriftOffset totalWidth offset mouseX dtRaw
    else offset

theorem marqueeDriftOffset_range (totalWidth offset mouseX dtRaw : ℚ)
    (hW : 1 ≤ totalWidth) (h0 : 0 ≤ offset) (h1 : offset < totalWidth)
    (hm1 : -1 ≤ mouseX) (hm2 : mouseX ≤ 1) (hdt : 0 ≤ dtRaw) :
    0 ≤ marqueeDriftOffset totalWidth offset mouseX dtRaw ∧
    marqueeDriftOffset totalWidth offset mouseX dtRaw < totalWidth := by
  simp only [marqueeDriftOffset]
  have hdt0 : 0 ≤ min dtRaw 50 := le_min hdt (by norm_num)
  have hdt50 : min dtRaw 50 ≤ 50 := min_le_right _ _
  have hsp1 : -(9/125 : ℚ) ≤ 8/1000 + mouseX * (8/100) := by nlinarith
  have hsp2 : (8/1000 : ℚ) + mouseX * (8/100) ≤ 11/125 := by nlinarith
  have hk0 : (0 : ℚ) ≤ min dtRaw 50 / (1667/100) := by
    apply div_nonneg hdt0
    norm_num
  have hk3 : min dtRaw 50 / (1667/100) ≤ 3 := by
    rw [div_le_iff (by norm_num : (0:ℚ) < 1667/100)]
    linarith
  have hstep1 : -(33/125 : ℚ)
      ≤ (8/1000 + mouseX * (8/100)) * (min dtRaw 50 / (1667/100)) := by
    nlinarith
  have hstep2 : (8/1000 + mouseX * (8/100)) * (min dtRaw 50 / (1667/100))
      ≤ 33/125 := by
    nlinarith
  split_ifs with hA hB
  · constructor <;> linarith
  · constructor <;> linarith
  · push_neg at hA hB
    exact ⟨hB, hA⟩

/-- C9: one marquee tick preserves the invariant
`offset ∈ [0, totalStripWidth)`: whether the offset is driven by an active
`ShiftAnimation` or by ambient drift (with normalized pointer x in `[-1, 1]`
and clamped frame delta), the resulting offset is again in
`[0, totalStripWidth)`. -/
theorem marqueeTickOffset_range (totalWidth offset mouseX dtRaw : ℚ)
    (anim : Option (ℚ × ℚ × ℚ)) (scrollPaused isTransitioning : Bool)
    (hW : 1 ≤ totalWidth) (h0 : 0 ≤ offset) (h1 : offset < totalWidth)
    (hm1 : -1 ≤ mouseX) (hm2 : mouseX ≤ 1) (hdt : 0 ≤ dtRaw) :
    0 ≤ marqueeTickOffset totalWidth offset mouseX dtRaw anim
        scrollPaused isTransitioning ∧
    marqueeTickOffset totalWidth offset mouseX dtRaw anim
        scrollPaused isTransitioning < totalWidth := by
  match anim with
  | some (s, d, eased) =>
    show 0 ≤ marqueeAnimOffset totalWidth s d eased ∧
      marqueeAnimOffset totalWidth s d eased < totalWidth
    exact wrap_bounds _ _ (by linarith)
  | none =>
    show 0 ≤ (if !scrollPaused && !isTransitioning then
        marqueeDriftOffset totalWidth offset mouseX dtRaw else offset) ∧
      (if !scrollPaused && !isTransitioning then
        marqueeDriftOffset totalWidth offset mouseX dtRaw else offset)
        < totalWidth
    split_ifs
    · exact marqueeDriftOffset_range totalWidth offset mouseX dtRaw
        hW h0 h1 hm1 hm2 hdt
    · exact ⟨h0, h1⟩

/-- Witness for `marqueeTickOffset_range` at a concrete drift tick. -/
theorem marqueeTickOffset_range_witness :
    0 ≤ marqueeTickOffset 100 5 1 16 none false false ∧
    marqueeTickOffset 100 5 1 16 none false false < 100 :=
  marqueeTickOffset_range 100 5 1 16 none false false (by norm_num)
    (by norm_num) (by norm_num) (by norm_num) (by norm_num) (by norm_num)

/-! ## Depth scale (`FloatingGalleryHero.jsx` lines 79-83 and 118-123)

`Math.pow(proximity, DEPTH_EASING_POWER)` with the non-integer exponent
`1.9` is modelled as the real power, so this definition lives over `ℝ`. -/

/-- Scale at viewport center, `DEPTH_SCALE_CENTER = 1.2`. -/
noncomputable def DEPTH_SCALE_CENTER : ℝ := 6/5

/-- Scale at viewport edges, `DEPTH_SCALE_EDGE = 0.85`. -/
noncomputable def DEPTH_SCALE_EDGE : ℝ := 17/20

/-- Distance (vw) from center at which the edge scale is reached,
`DEPTH_FALLOFF_HALF = 55`. -/
def DEPTH_FALLOFF_HALF : ℝ := 55

/-- Easing exponent `DEPTH_EASING_POWER = 1.9`. -/
noncomputable def DEPTH_EASING_POWER : ℝ := 19/10

/--
Depth-scale of a marquee item from its horizontal center in vw
(`computeDepthScale`, lines 118-123):
`EDGE + max(0, 1 - |x - 50| / 55) ^ 1.9 * (CENTER - EDGE)`.
-/
noncomputable def computeDepthScale (imgCenterVw : ℝ) : ℝ :=
  let dist := |imgCenterVw - 50|
  let proximity := max 0 (1 - dist / DEPTH_FALLOFF_HALF)
  let smooth := proximity ^ DEPTH_EASING_POWER
  DEPTH_SCALE_EDGE + smooth * (DEPTH_SCALE_CENTER - DEPTH_SCALE_EDGE)

theorem computeDepthScale_eq (x : ℝ) :
    computeDepthScale x
      = 17/20 + (max 0 (1 - |x - 50| / 55)) ^ (19/10 : ℝ) * (7/20) := by
  simp only [computeDepthScale, DEPTH_SCALE_EDGE, DEPTH_SCALE_CENTER,
    DEPTH_FALLOFF_HALF, DEPTH_EASING_POWER]
  norm_num


/-- C10: `computeDepthScale` always lies in
`[DEPTH_SCALE_EDGE, DEPTH_SCALE_CENTER] = [0.85, 1.2]`; it attains the center
value `1.2` exactly at `imgCenterVw = 50`, and the edge value `0.85` whenever
`|imgCenterVw - 50| ≥ DEPTH_FALLOFF_HALF = 55`. -/
theorem computeDepthScale_bounds (x : ℝ) :
    (DEPTH_SCALE_EDGE ≤ computeDepthScale x ∧
      computeDepthScale x ≤ DEPTH_SCALE_CENTER) ∧
    (computeDepthScale x = DEPTH_SCALE_CENTER ↔ x = 50) ∧
    (DEPTH_FALLOFF_HALF ≤ |x - 50| → computeDepthScale x = DEPTH_SCALE_EDGE) := by
  have hd0 : (0:ℝ) ≤ |x - 50| := abs_nonneg _
  have hp0 : (0:ℝ) ≤ max 0 (1 - |x - 50| / 55) := le_max_left _ _
  have hp1 : max 0 (1 - |x - 50| / 55) ≤ 1 := by
    apply max_le (by norm_num)
    have h55 : (0:ℝ) ≤ |x - 50| / 55 := by positivity
    linarith
  have hs0 : 0 ≤ (max 0 (1 - |x - 50| / 55)) ^ (19/10 : ℝ) :=
    Real.rpow_nonneg hp0 _
  have hs1 : (max 0 (1 - |x - 50| / 55)) ^ (19/10 : ℝ) ≤ 1 :=
    Real.rpow_le_one hp0 hp1 (by norm_num)
  have hEdge : DEPTH_SCALE_EDGE = (17/20 : ℝ) := rfl
  have hCenter : DEPTH_SCALE_CENTER = (6/5 : ℝ) := rfl
  have hHalf : DEPTH_FALLOFF_HALF = (55 : ℝ) := rfl
  refine ⟨⟨?_, ?_⟩, ⟨?_, ?_⟩, ?_⟩
  · rw [computeDepthScale_eq, hEdge]
    nlinarith
  · rw [computeDepthScale_eq, hCenter]
    nlinarith
  · intro hc
    rw [computeDepthScale_eq, hCenter] at hc
    have hs : (max 0 (1 - |x - 50| / 55)) ^ (19/10 : ℝ) = 1 := by linarith
    have hpeq : max 0 (1 - |x - 50| / 55) = 1 := by
      by_contra hne
      have hplt : max 0 (1 - |x - 50| / 55) < 1 := lt_of_le_of_ne hp1 hne
      have := Real.rpow_lt_one hp0 hplt (by norm_num : (0:ℝ) < 19/10)
      linarith
    have hq : 1 - |x - 50| / 55 = 1 := by
      rcases le_total (1 - |x - 50| / 55) 0 with hle | hge
      · rw [max_eq_left hle] at hpeq
        norm_num at hpeq
      · rw [max_eq_right hge] at hpeq
        exact hpeq
    have hzero : x - 50 = 0 := by
      have h1 : |x - 50| / 55 = 0 := by linarith
      field_simp at h1
      exact h1
    linarith
  · intro hx
    rw [computeDepthScale_eq, hCenter, hx]
    have hm : max (0:ℝ) (1 - |(50:ℝ) - 50| / 55) = 1 := by norm_num
    rw [hm, Real.one_rpow]
    norm_num
  · intro hfar
    rw [hHalf] at hfar
    rw [computeDepthScale_eq, hEdge]
    have h1 : (1:ℝ) ≤ |x - 50| / 55 := by
      rw [le_div_iff (by norm_num : (0:ℝ) < 55)]
      linarith
    have hm : max (0:ℝ) (1 - |x - 50| / 55) = 0 := max_eq_left (by linarith)
    rw [hm, Real.zero_rpow (by norm_num : (19/10 : ℝ) ≠ 0)]
    ring

/-- Witness for `computeDepthScale_bounds`: at horizontal center 105vw the
distance from center is exactly the falloff half-width, so the scale is the
edge value. -/
theorem computeDepthScale_bounds_witness :
    computeDepthScale 105 = DEPTH_SCALE_EDGE :=
  (computeDepthScale_bounds 105).2.2
    (by rw [show DEPTH_FALLOFF_HALF = (55:ℝ) from rfl]; norm_num)
